import Mathlib

/-!
Verification of the Quiry message-chunking and retrieval pipeline.

This file gives a shallow embedding of the core pure logic of the
repository (`src/chunking.rs`, `src/handler.rs`, `src/pinecone.rs`) and
proves properties of it.

Modelling conventions:
* `SystemTime` is modelled as `Int` nanoseconds since the Unix epoch
  (`UNIX_EPOCH = 0`); `SystemTime::duration_since` succeeds exactly when
  the argument is not later than the receiver.
* `chrono::DateTime::parse_from_rfc3339` is an external library call; it
  is modelled as a parameter `parseTs : String → Option Int` (`none` is a
  parse error).
* `Uuid::new_v4` is external randomness; freshly generated chunk ids are
  passed as explicit `String` parameters.
* Floating point scores (`f64`) are modelled as `ℚ`; none of the verified
  properties depends on rounding.
* Network calls (Pinecone, ElasticSearch, Cohere) are abstracted: query
  functions are parameters, and the *requests* the code builds (topK
  values, metadata filters) are embedded as data.
-/

/-- Policy constant from `chunking.rs`: `MAX_CHUNK_SIZE = 12`. -/
def MAX_CHUNK_SIZE : Nat := 12

/-- Policy constant from `chunking.rs`: `MIN_CHUNK_SIZE = 3`. -/
def MIN_CHUNK_SIZE : Nat := 3

/-- Policy constant from `chunking.rs`: `TIME_GAP_MINUTES = 15`. -/
def TIME_GAP_MINUTES : Nat := 15

/-- The time gap expressed in nanoseconds, the resolution of `Duration`:
`Duration::from_secs(TIME_GAP_MINUTES * 60)`. -/
def TIME_GAP_NANOS : Int := (TIME_GAP_MINUTES : Int) * 60 * 1000000000

/-- `schema.rs`: a single posted message. -/
structure MessageEvent where
  id : String
  guild_id : Option String
  channel_id : String
  author_id : String
  timestamp : String
  text : String
deriving DecidableEq

/-- `schema.rs`: a finalized window of contiguous messages of one channel. -/
structure MessageChunk where
  chunk_id : String
  guild_id : Option String
  channel_id : String
  first_msg_id : String
  last_msg_id : String
  first_timestamp : String
  last_timestamp : String
  message_count : Nat
  authors : List String
  full_text : String
  summary : Option String
  has_summary : Bool
deriving DecidableEq

/-- `chunking.rs`: the per-channel buffer (`MessageBuffer`).
`last_message_time` is the parsed time of the most recently added
message, initially `UNIX_EPOCH` (0 nanoseconds). -/
structure MessageBuffer where
  messages : List MessageEvent
  last_message_time : Int
deriving DecidableEq

/-- `MessageBuffer::new()`: empty message list, `UNIX_EPOCH` sentinel. -/
def MessageBuffer.new : MessageBuffer := ⟨[], 0⟩

/-- `MessageBuffer::should_flush`: no flush on an empty buffer; flush when
the buffer holds at least `MAX_CHUNK_SIZE` messages; otherwise flush when
`new_message_time.duration_since(last_message_time)` succeeds (the new
time is not earlier) and exceeds the time gap. -/
def MessageBuffer.should_flush (b : MessageBuffer) (new_message_time : Int) : Bool :=
  if b.messages.isEmpty then false
  else if MAX_CHUNK_SIZE ≤ b.messages.length then true
  else if b.last_message_time ≤ new_message_time then
    decide (TIME_GAP_NANOS < new_message_time - b.last_message_time)
  else false

/-- `MessageBuffer::add_message`: update `last_message_time` only when the
message's timestamp parses, then push the message. -/
def MessageBuffer.add_message (parseTs : String → Option Int)
    (b : MessageBuffer) (message : MessageEvent) : MessageBuffer :=
  { messages := b.messages ++ [message]
    last_message_time :=
      match parseTs message.timestamp with
      | some t => t
      | none => b.last_message_time }

/-- `MessageBuffer::create_chunk`: returns `none` when fewer than
`MIN_CHUNK_SIZE` messages are buffered; otherwise builds the chunk
(authors are the de-duplicated author ids, sorted — the source builds a
`HashSet` and sorts the collected vector) and clears the message list.
The fresh UUID is the explicit `chunk_id` parameter. -/
def MessageBuffer.create_chunk (chunk_id : String) (b : MessageBuffer) :
    Option (MessageChunk × MessageBuffer) :=
  if hlen : b.messages.length < MIN_CHUNK_SIZE then none
  else
    have hne : b.messages ≠ [] := by
      intro he
      rw [he] at hlen
      exact hlen (by simp [MIN_CHUNK_SIZE])
    let first_msg := b.messages.head hne
    let last_msg := b.messages.getLast hne
    let authors :=
      List.insertionSort (· ≤ ·) (b.messages.map (·.author_id)).dedup
    let full_text :=
      String.intercalate "\n"
        (b.messages.map (fun msg => msg.author_id ++ ": " ++ msg.text))
    some
      ({ chunk_id := chunk_id
         guild_id := first_msg.guild_id
         channel_id := first_msg.channel_id
         first_msg_id := first_msg.id
         last_msg_id := last_msg.id
         first_timestamp := first_msg.timestamp
         last_timestamp := last_msg.timestamp
         message_count := b.messages.length
         authors := authors
         full_text := full_text
         summary := none
         has_summary := false },
       { b with messages := [] })

/-- The state of `ChunkManager`: the `HashMap<String, MessageBuffer>` is
modelled as an association list (lookup by key; the claims proved below
do not depend on iteration order). -/
abbrev ChunkManagerState := List (String × MessageBuffer)

/-- `ChunkManager::new()`: an empty buffer table. -/
def ChunkManagerState.new : ChunkManagerState := []

/-- `ChunkManager::get_buffer_key`. -/
def get_buffer_key (guild_id : Option String) (channel_id : String) : String :=
  match guild_id with
  | some gid => gid ++ ":" ++ channel_id
  | none => "dm:" ++ channel_id

/-- Lookup of a buffer, with the `entry(..).or_insert_with(MessageBuffer::new)`
default of an empty buffer. -/
def getBuffer (st : ChunkManagerState) (key : String) : MessageBuffer :=
  match st with
  | [] => MessageBuffer.new
  | (k, b) :: rest => if k = key then b else getBuffer rest key

/-- Store a buffer under a key, replacing an existing entry or appending a
new one (`HashMap::insert` semantics on the association list). -/
def setBuffer (st : ChunkManagerState) (key : String) (b : MessageBuffer) :
    ChunkManagerState :=
  match st with
  | [] => [(key, b)]
  | (k, b0) :: rest =>
    if k = key then (key, b) :: rest else (k, b0) :: setBuffer rest key b

/-- The pre-add step of `ChunkManager::process_message`: when
`should_flush` holds, try to take a chunk out of the buffer
(`create_chunk` may still refuse and leave the buffer intact). -/
def flush_if_should (chunk_id : String) (message_time : Int) (b : MessageBuffer) :
    Option MessageChunk × MessageBuffer :=
  if b.should_flush message_time then
    match b.create_chunk chunk_id with
    | some (c, b') => (some c, b')
    | none => (none, b)
  else (none, b)

/-- The post-add step of `ChunkManager::process_message`: flush when the
buffer reached `MAX_CHUNK_SIZE`. -/
def flush_if_full (chunk_id : String) (b : MessageBuffer) :
    Option MessageChunk × MessageBuffer :=
  if MAX_CHUNK_SIZE ≤ b.messages.length then
    match b.create_chunk chunk_id with
    | some (c, b') => (some c, b')
    | none => (none, b)
  else (none, b)

/-- `ChunkManager::process_message`. The timestamp is parsed first; a
parse failure returns `Err("Invalid timestamp: ...")` before any buffer
is touched. On success: pre-add flush decision, append the message, then
the max-size re-check. The returned list holds the chunks this call
emitted (handed to `process_chunk`), in emission order; `id1`/`id2` are
the fresh UUIDs for the up-to-two chunks. -/
def process_message (parseTs : String → Option Int) (id1 id2 : String)
    (st : ChunkManagerState) (message : MessageEvent) :
    Except String (ChunkManagerState × List MessageChunk) :=
  match parseTs message.timestamp with
  | none => .error "Invalid timestamp"
  | some message_time =>
    let key := get_buffer_key message.guild_id message.channel_id
    let b0 := getBuffer st key
    let r1 := flush_if_should id1 message_time b0
    let b2 := r1.2.add_message parseTs message
    let r2 := flush_if_full id2 b2
    .ok (setBuffer st key r2.2, r1.1.toList ++ r2.1.toList)

/-- The behaviour of `process_message`'s callers (`process_message_directly`,
the Kafka consumer): an `Err` is logged and the state is left unchanged,
no chunk is emitted. -/
def process_message_or_keep (parseTs : String → Option Int) (id1 id2 : String)
    (st : ChunkManagerState) (message : MessageEvent) :
    ChunkManagerState × List MessageChunk :=
  match process_message parseTs id1 id2 st message with
  | .ok r => r
  | .error _ => (st, [])

/-- Feed a list of messages to a `ChunkManager` starting from state `st`,
collecting every emitted chunk; message `i` uses the fresh ids
`ids (2*i)` and `ids (2*i+1)`. -/
def run_messages_from (parseTs : String → Option Int) (ids : Nat → String)
    (i : Nat) (st : ChunkManagerState) :
    List MessageEvent → ChunkManagerState × List MessageChunk
  | [] => (st, [])
  | m :: ms =>
    let r := process_message_or_keep parseTs (ids (2 * i)) (ids (2 * i + 1)) st m
    let rest := run_messages_from parseTs ids (i + 1) r.1 ms
    (rest.1, r.2 ++ rest.2)

/-- Feed a list of messages to a fresh `ChunkManager`. -/
def run_messages (parseTs : String → Option Int) (ids : Nat → String)
    (msgs : List MessageEvent) : ChunkManagerState × List MessageChunk :=
  run_messages_from parseTs ids 0 ChunkManagerState.new msgs

/-- The body of the `flush_all_buffers` loop for one buffer: skip empty
buffers, otherwise take a chunk if `create_chunk` allows it (a buffer
below `MIN_CHUNK_SIZE` yields nothing and stays as it is). -/
def flush_buffer (chunk_id : String) (b : MessageBuffer) :
    Option MessageChunk × MessageBuffer :=
  if b.messages.isEmpty then (none, b)
  else
    match b.create_chunk chunk_id with
    | some (c, b') => (some c, b')
    | none => (none, b)

/-- `ChunkManager::flush_all_buffers`: every buffer of the table goes
through `flush_buffer`; the collected chunks are returned in table order
(the buffer at position `i` uses the fresh id `ids i`). -/
def flush_all_buffers (ids : Nat → String) :
    Nat → ChunkManagerState → List MessageChunk × ChunkManagerState
  | _, [] => ([], [])
  | i, (k, b) :: rest =>
    let r := flush_buffer (ids i) b
    let rr := flush_all_buffers ids (i + 1) rest
    (r.1.toList ++ rr.1, (k, r.2) :: rr.2)

/-- `schema.rs`: one hit from per-message vector search. -/
structure QueryResult where
  text : String
  author_id : String
  timestamp : String
  score : ℚ
deriving DecidableEq

/-- `schema.rs`: one hit from chunk vector search. -/
structure ChunkQueryResult where
  chunk_id : String
  text : String
  summary : Option String
  authors : List String
  message_count : Nat
  first_timestamp : String
  last_timestamp : String
  score : ℚ
deriving DecidableEq

/-- `elasticsearch.rs`: one hit from the keyword index.  -/
structure ESQueryResult where
  text : String
  author_id : String
  channel_id : String
  timestamp : String
  guild_id : Option String
  score : ℚ
deriving DecidableEq

/-- The `guild_id` metadata filter built by `query_pinecone` and
`query_chunks_pinecone`: an equality filter when a guild id is supplied,
a negated existence filter otherwise. -/
inductive GuildFilter where
  | eq (guild_id : String)
  | absent
deriving DecidableEq

/-- The vector-store query that `query_chunks_pinecone` builds: topK, the
constant filter `type = {"$eq": "chunk"}`, and the guild filter. -/
structure DenseQuery where
  topK : Nat
  typeEq : String
  guild : GuildFilter
deriving DecidableEq

/-- The request body of `query_chunks_pinecone` (`pinecone.rs` lines
163-180) as a function of its `top_k` and `guild_id` arguments. -/
def chunks_query (top_k : Nat) (guild_id : Option String) : DenseQuery :=
  { topK := top_k
    typeEq := "chunk"
    guild :=
      match guild_id with
      | some gid => .eq gid
      | none => .absent }

/-- The dense (Pinecone) call made by `Handler::hybrid_search`
(`handler.rs` lines 206-216): when the caller has a guild id, a
`query_chunks_pinecone` call with `top_k = 5` and that guild id; with no
guild id (a DM) no dense query is made at all and the dense result list
is empty. -/
def hybrid_dense_query (guild_id : Option String) : Option DenseQuery :=
  match guild_id with
  | some gid => some (chunks_query 5 (some gid))
  | none => none

/-- What claim C8 states about the dense step of hybrid mode: a query
with `topK = 3`, `type = "chunk"`, and a guild filter by presence. -/
def hybridDenseClaim (guild_id : Option String) : Prop :=
  hybrid_dense_query guild_id = some (chunks_query 3 guild_id)

instance (guild_id : Option String) : Decidable (hybridDenseClaim guild_id) := by
  unfold hybridDenseClaim
  infer_instance

/-- The external search and generation services used by
`Handler::handle_ask_command`, abstracted as functions of the topK bound
and the guild id (the embedded question is fixed). Each call can fail. -/
structure SearchBackend where
  queryChunks : Nat → Option String → Except String (List ChunkQueryResult)
  queryMessages : Nat → Option String → Except String (List QueryResult)
  genFromChunks : String → List ChunkQueryResult → Except String String
  genResponse : String → List QueryResult → Except String String

/-- The fixed no-result answer of `Handler::handle_ask_command`. -/
def noRelevantMessages : String :=
  "I couldn't find any relevant messages in the history to answer your question."

/-- `Handler::handle_ask_command` (`handler.rs` lines 344-370): query
chunks with `topK = 3`; when that is non-empty, generate from chunks;
otherwise fall back to the per-message dense search with `topK = 5` and
the same guild id; when that is also empty, answer with the fixed
string. -/
def handle_ask_command (be : SearchBackend) (question : String)
    (guild_id : Option String) : Except String String := do
  let similar_chunks ← be.queryChunks 3 guild_id
  if ¬similar_chunks.isEmpty then
    be.genFromChunks question similar_chunks
  else do
    let similar_messages ← be.queryMessages 5 guild_id
    if similar_messages.isEmpty then
      pure noRelevantMessages
    else
      be.genResponse question similar_messages

/-- Association-map insertion with `HashMap::insert` semantics: replace
the value of an existing key, append a fresh key. -/
def mapInsert {α : Type} (k : String) (v : α) :
    List (String × α) → List (String × α)
  | [] => [(k, v)]
  | (k0, v0) :: rest =>
    if k0 = k then (k, v) :: rest else (k0, v0) :: mapInsert k v rest

/-- Association-map lookup (`HashMap::get`). -/
def mapGet {α : Type} (k : String) : List (String × α) → Option α
  | [] => none
  | (k0, v0) :: rest => if k0 = k then some v0 else mapGet k rest

/-- Descending sort by the stored score, the final
`sort_by(|a, b| b.0.partial_cmp(&a.0))` of `merge_search_results`. -/
def sortByScoreDesc (l : List (ℚ × ESQueryResult)) : List (ℚ × ESQueryResult) :=
  List.insertionSort (fun a b => b.1 ≤ a.1) l

/-- `Handler::merge_search_results` (`handler.rs` lines 249-296).
Pinecone results are inserted under the key `result.chunk_id` with score
`alpha * (score + 1) / 2`; ElasticSearch results are inserted under the
key `result.text` with score `(1 - alpha) * score / 10`, and when that
key is already present the entry with the larger score is kept. The
values are then sorted by score, descending. -/
def merge_search_results (pinecone_results : List ChunkQueryResult)
    (es_results : List ESQueryResult) (alpha : ℚ) : List ESQueryResult :=
  let step1 : List (String × (ℚ × ESQueryResult)) :=
    pinecone_results.foldl
      (fun combined_scores result =>
        let normalized_score := (result.score + 1) / 2
        let final_score := alpha * normalized_score
        let es_result : ESQueryResult :=
          { text := result.text
            author_id := result.authors.headD "unknown"
            channel_id := "unknown"
            timestamp := result.first_timestamp
            guild_id := none
            score := final_score }
        mapInsert result.chunk_id (final_score, es_result) combined_scores)
      []
  let step2 : List (String × (ℚ × ESQueryResult)) :=
    es_results.foldl
      (fun combined_scores result =>
        let normalized_score := result.score / 10
        let final_score := (1 - alpha) * normalized_score
        match mapGet result.text combined_scores with
        | some (existing_score, _) =>
          if existing_score < final_score then
            mapInsert result.text (final_score, result) combined_scores
          else combined_scores
        | none => mapInsert result.text (final_score, result) combined_scores)
      step1
  (sortByScoreDesc (step2.map Prod.snd)).map Prod.snd

/-- A UTF-8 continuation byte: high bits `10xxxxxx`. -/
def isContByte (b : Nat) : Bool := 0x80 ≤ b && b < 0xC0

/-- Rust's `str::is_char_boundary(i)` on the underlying bytes: true at
the end of the string, and at an index holding a non-continuation byte;
false past the end or inside a multi-byte character. -/
def is_char_boundary (bytes : List Nat) (i : Nat) : Bool :=
  if i = bytes.length then true
  else
    match bytes[i]? with
    | some b => !isContByte b
    | none => false

/-- Well-formedness of a byte sequence as UTF-8 (the invariant of a Rust
`String`), following the table of RFC 3629: ASCII, two-byte `C2..DF`,
three-byte `E0/E1..EC/ED/EE..EF` with their continuation ranges
(excluding overlongs and surrogates), four-byte `F0/F1..F3/F4`. -/
def utf8Valid : List Nat → Bool
  | [] => true
  | b :: rest =>
    if b < 0x80 then utf8Valid rest
    else if b < 0xC2 then false
    else if b < 0xE0 then
      match rest with
      | c1 :: rest2 => isContByte c1 && utf8Valid rest2
      | [] => false
    else if b < 0xF0 then
      match rest with
      | c1 :: c2 :: rest2 =>
        (if b = 0xE0 then decide (0xA0 ≤ c1) && decide (c1 < 0xC0)
         else if b = 0xED then decide (0x80 ≤ c1) && decide (c1 < 0xA0)
         else isContByte c1)
          && isContByte c2 && utf8Valid rest2
      | _ => false
    else if b < 0xF5 then
      match rest with
      | c1 :: c2 :: c3 :: rest2 =>
        (if b = 0xF0 then decide (0x90 ≤ c1) && decide (c1 < 0xC0)
         else if b = 0xF4 then decide (0x80 ≤ c1) && decide (c1 < 0x90)
         else isContByte c1)
          && isContByte c2 && isContByte c3 && utf8Valid rest2
      | _ => false
    else false

/-- The ASCII bytes of `"..."` appended by the truncation. -/
def ellipsisBytes : List Nat := [0x2E, 0x2E, 0x2E]

/-- The display-text truncation of `query_chunks_pinecone`
(`pinecone.rs` lines 224-232) on the bytes of `full_text`, for a chunk
without a summary: when `full_text.len() > 500` the code evaluates
`format!("{}...", &full_text[..500])`.  The byte slice `full_text[..500]`
panics when index 500 is not a char boundary; the panic is modelled as
`none`. -/
def truncate_full_text (full_text : List Nat) : Option (List Nat) :=
  if 500 < full_text.length then
    if is_char_boundary full_text 500 then
      some (full_text.take 500 ++ ellipsisBytes)
    else none
  else some full_text

/-- The numeric value of a decimal digit character. -/
def digitVal (c : Char) : Option Nat :=
  if c.toNat < 48 then none
  else if 57 < c.toNat then none
  else some (c.toNat - 48)

/-- Accumulating decimal parser over a character list. -/
def parseDigits : Nat → List Char → Option Nat
  | acc, [] => some acc
  | acc, c :: cs =>
    match digitVal c with
    | some d => parseDigits (acc * 10 + d) cs
    | none => none

/-- A concrete timestamp parser standing in for
`chrono::DateTime::parse_from_rfc3339` in witnesses: succeeds exactly on
non-empty decimal digit strings (so strings such as "not-a-timestamp"
fail to parse). -/
def parseNum (s : String) : Option Int :=
  match s.data with
  | [] => none
  | cs => (parseDigits 0 cs).map Int.ofNat

/-- A concrete supply of fresh uuid strings for witnesses. -/
def idsEx (i : Nat) : String := "uuid-" ++ toString i

/-- A concrete message with numeric id and timestamp `i`. -/
def mkMsg (i : Nat) (author : String) : MessageEvent :=
  { id := toString i
    guild_id := some "g"
    channel_id := "ch"
    author_id := author
    timestamp := toString i
    text := "hi" }

/-- Twelve messages of one channel, one nanosecond apart. -/
def msgs12 : List MessageEvent := (List.range 12).map (fun i => mkMsg i "a")

/-- A placeholder chunk (only used as a `getD` default). -/
def dummyChunk : MessageChunk :=
  { chunk_id := ""
    guild_id := none
    channel_id := ""
    first_msg_id := ""
    last_msg_id := ""
    first_timestamp := ""
    last_timestamp := ""
    message_count := 0
    authors := []
    full_text := ""
    summary := none
    has_summary := false }

/-- The chunk emitted by feeding `msgs12` to a fresh manager. -/
def c5Chunk : MessageChunk :=
  ((run_messages parseNum idsEx msgs12).2).headD dummyChunk

/-- A concrete three-message buffer, with a repeated author. -/
def exBuf3 : MessageBuffer :=
  { messages := [mkMsg 1 "bob", mkMsg 2 "alice", mkMsg 3 "bob"]
    last_message_time := 3 }

/-- The chunk produced from `exBuf3`. -/
def c9Chunk : MessageChunk :=
  ((exBuf3.create_chunk "c9").getD (dummyChunk, MessageBuffer.new)).1

/-- The cleared buffer left behind by `exBuf3.create_chunk`. -/
def c9Rest : MessageBuffer :=
  ((exBuf3.create_chunk "c9").getD (dummyChunk, MessageBuffer.new)).2

/-- A concrete single-message (non-empty, below `MIN_CHUNK_SIZE`) buffer. -/
def c1Buf : MessageBuffer :=
  { messages := [mkMsg 100 "a"], last_message_time := 100 }

/-- A concrete message whose timestamp does not parse. -/
def badMsg : MessageEvent :=
  { id := "m9"
    guild_id := none
    channel_id := "ch"
    author_id := "a"
    timestamp := "not-a-timestamp"
    text := "t" }

/-- A search backend whose queries succeed with empty result lists. -/
def emptyBackend : SearchBackend :=
  { queryChunks := fun _ _ => .ok []
    queryMessages := fun _ _ => .ok []
    genFromChunks := fun _ _ => .ok "from-chunks"
    genResponse := fun _ _ => .ok "from-messages" }

/-- A concrete dense hit: cosine score `0.8`, text "hello", chunk id
distinct from the text (as a UUID is). -/
def p2 : ChunkQueryResult :=
  { chunk_id := "c1"
    text := "hello"
    summary := none
    authors := ["a"]
    message_count := 3
    first_timestamp := "t1"
    last_timestamp := "t2"
    score := 4/5 }

/-- The same dense hit with `chunk_id` equal to its text. -/
def p2eq : ChunkQueryResult := { p2 with chunk_id := "hello" }

/-- A concrete keyword hit for the same text, score `6.0`. -/
def e2 : ESQueryResult :=
  { text := "hello"
    author_id := "b"
    channel_id := "ch"
    timestamp := "t3"
    guild_id := none
    score := 6 }

/-- A full-text byte sequence of 499 ASCII characters followed by one
two-byte character (U+00E9), whose 501 bytes put byte index 500 inside
the final character. -/
def c10Bytes : List Nat := List.replicate 499 0x61 ++ [0xC3, 0xA9]

/-- The length invariant maintained by `process_message`: every buffer of
the table holds strictly fewer than `MAX_CHUNK_SIZE` messages (the
post-add re-check drains a buffer the moment it reaches the maximum). -/
def BufLenInv (st : ChunkManagerState) : Prop :=
  ∀ p ∈ st, p.2.messages.length < MAX_CHUNK_SIZE

/-- `create_chunk` either refuses (fewer than `MIN_CHUNK_SIZE` messages,
buffer untouched) or emits a chunk carrying the whole buffer content and
clears the message list. -/
theorem create_chunk_eq_some {chunk_id : String} {b : MessageBuffer}
    {c : MessageChunk} {b' : MessageBuffer}
    (h : b.create_chunk chunk_id = some (c, b')) :
    c.message_count = b.messages.length ∧ MIN_CHUNK_SIZE ≤ b.messages.length ∧
    c.authors = List.insertionSort (· ≤ ·) (b.messages.map (·.author_id)).dedup ∧
    b' = { b with messages := [] } := by
  unfold MessageBuffer.create_chunk at h
  split at h
  · cases h
  · rename_i hlen
    simp only [Option.some.injEq, Prod.mk.injEq] at h
    obtain ⟨hc, hb'⟩ := h
    subst hc
    subst hb'
    exact ⟨rfl, by omega, rfl, rfl⟩

/-- `create_chunk` refuses exactly below `MIN_CHUNK_SIZE`, leaving the
buffer as it is. -/
theorem create_chunk_eq_none {chunk_id : String} {b : MessageBuffer} :
    b.create_chunk chunk_id = none ↔ b.messages.length < MIN_CHUNK_SIZE := by
  unfold MessageBuffer.create_chunk
  split
  · rename_i hlen
    simp [hlen]
  · rename_i hlen
    simp [hlen]

/-- A successful `create_chunk` exists whenever the buffer holds at least
`MIN_CHUNK_SIZE` messages. -/
theorem create_chunk_isSome (chunk_id : String) {b : MessageBuffer}
    (hge : MIN_CHUNK_SIZE ≤ b.messages.length) :
    ∃ c b', b.create_chunk chunk_id = some (c, b') := by
  cases hck : b.create_chunk chunk_id with
  | none =>
    rw [create_chunk_eq_none] at hck
    omega
  | some r => exact ⟨r.1, r.2, rfl⟩

/-- Claim C4: the pre-add flush decision does not flush an empty buffer,
flushes at `MAX_CHUNK_SIZE` (12) buffered messages, flushes when the new
message's time exceeds the last message's time by more than `TIME_GAP`
(15 minutes), and otherwise does not flush; and the post-add re-check of
`process_message` flushes exactly when the buffer length reached
`MAX_CHUNK_SIZE`. -/
theorem claim_c4 :
    (∀ (b : MessageBuffer) (t : Int),
      b.should_flush t = true ↔
        (b.messages ≠ [] ∧
          (MAX_CHUNK_SIZE ≤ b.messages.length ∨
            TIME_GAP_NANOS < t - b.last_message_time))) ∧
    (∀ (chunk_id : String) (b : MessageBuffer),
      ((flush_if_full chunk_id b).1.isSome = true ↔
        MAX_CHUNK_SIZE ≤ b.messages.length)) := by
  have hgap : TIME_GAP_NANOS = 900000000000 := by
    norm_num [TIME_GAP_NANOS, TIME_GAP_MINUTES]
  constructor
  · intro b t
    unfold MessageBuffer.should_flush
    by_cases hemp : b.messages.isEmpty
    · simp [hemp, List.isEmpty_iff.mp hemp]
    · have hne : b.messages ≠ [] := by simpa [List.isEmpty_iff] using hemp
      by_cases hmax : MAX_CHUNK_SIZE ≤ b.messages.length
      · simp [hemp, hmax, hne]
      · by_cases hle : b.last_message_time ≤ t
        · simp [hemp, hmax, hle, hne]
        · simp [hemp, hmax, hle, hne]
          omega
  · intro chunk_id b
    unfold flush_if_full
    by_cases hmax : MAX_CHUNK_SIZE ≤ b.messages.length
    · have hmin : MIN_CHUNK_SIZE ≤ b.messages.length := by
        simp [MIN_CHUNK_SIZE] at *
        simp [MAX_CHUNK_SIZE] at hmax
        omega
      obtain ⟨c, b', hc⟩ := create_chunk_isSome chunk_id hmin
      simp [hmax, hc]
    · simp [hmax]

/-- Claim C3 (counterexample): a message whose timestamp does not parse
is rejected by `process_message` with an error before any buffer is
touched — it is not appended, and the manager state stays empty. -/
theorem claim_c3_counterexample :
    parseNum badMsg.timestamp = none ∧
    process_message parseNum "u1" "u2" [] badMsg = .error "Invalid timestamp" ∧
    process_message_or_keep parseNum "u1" "u2" [] badMsg = ([], []) := by
  have h : parseNum badMsg.timestamp = none := by decide
  refine ⟨h, ?_, ?_⟩
  · unfold process_message
    rw [h]
  · unfold process_message_or_keep process_message
    rw [h]

/-- Claim C3 (amended): when the incoming message's timestamp does not
parse, `process_message` returns `Err` before touching any buffer: the
message is not appended, no chunk is emitted, and the whole state —
including every buffer's `last_message_time` — is unchanged. -/
theorem claim_c3_amended :
    ∀ (parseTs : String → Option Int) (id1 id2 : String)
      (st : ChunkManagerState) (m : MessageEvent),
      parseTs m.timestamp = none →
      process_message parseTs id1 id2 st m = .error "Invalid timestamp" ∧
      process_message_or_keep parseTs id1 id2 st m = (st, []) := by
  intro parseTs id1 id2 st m h
  constructor
  · unfold process_message
    rw [h]
  · unfold process_message_or_keep process_message
    rw [h]

/-- Claim C3 (witness): the amended statement at a concrete state and
message. -/
theorem claim_c3_witness :
    process_message parseNum "w1" "w2" [("g:ch", exBuf3)] badMsg =
      .error "Invalid timestamp" ∧
    process_message_or_keep parseNum "w1" "w2" [("g:ch", exBuf3)] badMsg =
      ([("g:ch", exBuf3)], []) :=
  claim_c3_amended parseNum "w1" "w2" [("g:ch", exBuf3)] badMsg (by decide)

/-- Claim C8 (counterexample): the dense step of hybrid mode does not
match the claim — with a guild the query uses `topK = 5` (not 3), and
for a DM no dense query is made at all instead of one filtered to
records without a `guild_id`. -/
theorem claim_c8_counterexample :
    ¬ hybridDenseClaim (some "g") ∧ ¬ hybridDenseClaim none := by
  constructor <;> decide

/-- Claim C8 (amended): in hybrid mode the dense step queries the vector
store with `topK = 5`, restricted to `type = "chunk"` and the caller's
guild id, and is skipped entirely (no query) when the question comes
from a DM. -/
theorem claim_c8_amended :
    ∀ gid : String,
      hybrid_dense_query (some gid) =
        some { topK := 5, typeEq := "chunk", guild := .eq gid } ∧
      hybrid_dense_query none = none :=
  fun _ => ⟨rfl, rfl⟩

/-- Claim C1 (counterexample): `flush_all_buffers` on a table holding one
non-empty buffer of a single message emits nothing and leaves the buffer
(and its message) in place — `create_chunk`'s `MIN_CHUNK_SIZE` guard
applies on the drain path too. -/
theorem claim_c1_counterexample :
    c1Buf.messages ≠ [] ∧
    flush_all_buffers idsEx 0 [("g:ch", c1Buf)] = ([], [("g:ch", c1Buf)]) := by
  constructor
  · decide
  · rfl

/-- Claim C1 (amended): `flush_all_buffers` emits a chunk from every
buffer holding at least `MIN_CHUNK_SIZE` messages and clears it; a
non-empty buffer below `MIN_CHUNK_SIZE` emits nothing and is left
unchanged; the table is processed buffer by buffer. -/
theorem claim_c1_amended :
    (∀ (chunk_id : String) (b : MessageBuffer),
      MIN_CHUNK_SIZE ≤ b.messages.length →
      ∃ c, flush_buffer chunk_id b = (some c, { b with messages := [] }) ∧
        c.message_count = b.messages.length) ∧
    (∀ (chunk_id : String) (b : MessageBuffer),
      b.messages.length < MIN_CHUNK_SIZE →
      flush_buffer chunk_id b = (none, b)) ∧
    (∀ (ids : Nat → String) (i : Nat) (k : String) (b : MessageBuffer)
        (rest : ChunkManagerState),
      flush_all_buffers ids i ((k, b) :: rest) =
        ((flush_buffer (ids i) b).1.toList ++ (flush_all_buffers ids (i + 1) rest).1,
         (k, (flush_buffer (ids i) b).2) :: (flush_all_buffers ids (i + 1) rest).2)) := by
  refine ⟨?_, ?_, ?_⟩
  · intro chunk_id b hge
    obtain ⟨c, b', hc⟩ := create_chunk_isSome chunk_id hge
    obtain ⟨hcount, _, _, hb'⟩ := create_chunk_eq_some hc
    have hne : ¬ b.messages.isEmpty = true := by
      cases hms : b.messages with
      | nil => rw [hms] at hge; simp [MIN_CHUNK_SIZE] at hge
      | cons x xs => simp [hms]
    refine ⟨c, ?_, hcount⟩
    unfold flush_buffer
    rw [hb'] at hc
    simp [hne, hc]
  · intro chunk_id b hlt
    unfold flush_buffer
    by_cases hne : b.messages.isEmpty
    · simp [hne]
    · have hnone : b.create_chunk chunk_id = none := create_chunk_eq_none.mpr hlt
      simp [hne, hnone]
  · intro ids i k b rest
    rfl

/-- Claim C1 (witness): the amended statement at concrete buffers — a
three-message buffer is drained into a chunk of three messages, a
one-message buffer is left alone. -/
theorem claim_c1_witness :
    (∃ c, flush_buffer "u1" exBuf3 = (some c, { exBuf3 with messages := [] }) ∧
      c.message_count = exBuf3.messages.length) ∧
    flush_buffer "u2" c1Buf = (none, c1Buf) :=
  ⟨claim_c1_amended.1 "u1" exBuf3 (by decide),
   claim_c1_amended.2.1 "u2" c1Buf (by decide)⟩

/-- Claim C7: on the dense-only path, when the chunk search with
`topK = 3` returns no results the per-message dense search runs with
`topK = 5` and the same guild argument, and when that is also empty the
answer is exactly the fixed no-result string. -/
theorem claim_c7 :
    ∀ (be : SearchBackend) (question : String) (guild_id : Option String),
      be.queryChunks 3 guild_id = .ok [] →
      be.queryMessages 5 guild_id = .ok [] →
      handle_ask_command be question guild_id =
        .ok "I couldn't find any relevant messages in the history to answer your question." := by
  intro be question guild_id h1 h2
  unfold handle_ask_command
  rw [show (do
      let similar_chunks ← be.queryChunks 3 guild_id
      if ¬similar_chunks.isEmpty then
        be.genFromChunks question similar_chunks
      else do
        let similar_messages ← be.queryMessages 5 guild_id
        if similar_messages.isEmpty then
          pure noRelevantMessages
        else
          be.genResponse question similar_messages : Except String String) =
    (be.queryChunks 3 guild_id).bind fun similar_chunks =>
      if ¬similar_chunks.isEmpty then
        be.genFromChunks question similar_chunks
      else
        (be.queryMessages 5 guild_id).bind fun similar_messages =>
          if similar_messages.isEmpty then
            pure noRelevantMessages
          else
            be.genResponse question similar_messages from rfl]
  rw [h1, h2]
  rfl

/-- Claim C7 (witness): the fixed string is returned for a concrete
backend whose two searches return empty lists. -/
theorem claim_c7_witness :
    handle_ask_command emptyBackend "q" (some "g") =
      .ok "I couldn't find any relevant messages in the history to answer your question." :=
  claim_c7 emptyBackend "q" (some "g") rfl rfl

/-- Claim C9: for every emitted chunk, `authors` is exactly the set of
distinct `author_id` values of the member messages — every contributing
author appears, nothing else appears, there are no duplicates, and the
list is sorted lexicographically. -/
theorem claim_c9 :
    ∀ (chunk_id : String) (b : MessageBuffer) (c : MessageChunk) (b' : MessageBuffer),
      b.create_chunk chunk_id = some (c, b') →
      List.Sorted (· ≤ ·) c.authors ∧ c.authors.Nodup ∧
      (∀ a, a ∈ c.authors ↔ a ∈ b.messages.map (·.author_id)) := by
  intro chunk_id b c b' h
  obtain ⟨_, _, hauth, _⟩ := create_chunk_eq_some h
  have hperm : List.Perm
      (List.insertionSort (· ≤ ·) ((b.messages.map (·.author_id)).dedup))
      ((b.messages.map (·.author_id)).dedup) := List.perm_insertionSort _ _
  refine ⟨?_, ?_, ?_⟩
  · rw [hauth]
    exact List.sorted_insertionSort _ _
  · rw [hauth]
    exact hperm.nodup_iff.mpr (List.nodup_dedup _)
  · intro a
    rw [hauth, hperm.mem_iff, List.mem_dedup]

/-- Claim C9 (witness): the chunk created from a concrete three-message
buffer with authors `bob`, `alice`, `bob` has the stated author-set
property. -/
theorem claim_c9_witness :
    exBuf3.create_chunk "c9" = some (c9Chunk, c9Rest) ∧
    (List.Sorted (· ≤ ·) c9Chunk.authors ∧ c9Chunk.authors.Nodup ∧
      (∀ a, a ∈ c9Chunk.authors ↔ a ∈ exBuf3.messages.map (·.author_id))) := by
  have h : exBuf3.create_chunk "c9" = some (c9Chunk, c9Rest) := rfl
  exact ⟨h, claim_c9 "c9" exBuf3 c9Chunk c9Rest h⟩

set_option maxRecDepth 100000 in
/-- Claim C10: the display-text truncation of `query_chunks_pinecone` is
not total — there is a valid UTF-8 `full_text` longer than 500 bytes for
which byte index 500 falls inside a multi-byte character, so the slice
`full_text[..500]` panics. -/
theorem claim_c10 :
    ∃ bytes : List Nat, utf8Valid bytes = true ∧ 500 < bytes.length ∧
      truncate_full_text bytes = none := by
  refine ⟨c10Bytes, by decide, ?_, ?_⟩
  · simp [c10Bytes]
  · have hlen : 500 < c10Bytes.length := by simp [c10Bytes]
    have hcb : is_char_boundary c10Bytes 500 = false := by decide
    simp [truncate_full_text, hlen, hcb]

/-- Sorting by score does not change how many entries satisfy a
predicate. -/
theorem sortByScoreDesc_filter_length (l : List (ℚ × ESQueryResult))
    (q : ESQueryResult → Bool) :
    (((sortByScoreDesc l).map Prod.snd).filter q).length =
      ((l.map Prod.snd).filter q).length :=
  (((List.perm_insertionSort _ l).map Prod.snd).filter q).length_eq

/-- Fusion of one dense and one keyword result whose keys differ (the
usual case, the chunk id being a UUID): both entries survive, sorted
with the dense entry first when its weighted component is at least the
keyword one. -/
theorem merge_single_distinct :
    ∀ (p : ChunkQueryResult) (e : ESQueryResult) (alpha : ℚ),
      p.chunk_id ≠ e.text →
      (1 - alpha) * (e.score / 10) ≤ alpha * ((p.score + 1) / 2) →
      merge_search_results [p] [e] alpha =
        [{ text := p.text
           author_id := p.authors.headD "unknown"
           channel_id := "unknown"
           timestamp := p.first_timestamp
           guild_id := none
           score := alpha * ((p.score + 1) / 2) }, e] := by
  intro p e alpha h hscore
  unfold merge_search_results
  simp only [List.foldl_cons, List.foldl_nil, mapInsert, mapGet, h, if_neg]
  simp [sortByScoreDesc, List.insertionSort, List.orderedInsert, hscore]

/-- Claim C2 (counterexample): a dense hit with cosine score `0.8` and a
keyword hit with score `6.0` for the same text "hello" (the dense entry
keyed by its chunk id `"c1"`, as a UUID is distinct from the text): no
entry of the fused output carries the claimed combined score
`0.795 = 159/200`; the output scores are `117/200` (= 0.65·0.9) and the
raw keyword score `6`. -/
theorem claim_c2_counterexample :
    p2.text = e2.text ∧
    (merge_search_results [p2] [e2] (13/20)).map ESQueryResult.score = [117/200, 6] ∧
    (159/200 : ℚ) ∉ (merge_search_results [p2] [e2] (13/20)).map ESQueryResult.score := by
  have h := merge_single_distinct p2 e2 (13/20) (by decide) (by norm_num [p2, e2])
  refine ⟨rfl, ?_, ?_⟩
  · rw [h]
    norm_num [p2, e2]
  · rw [h]
    norm_num [p2, e2]

/-- Claim C2 (amended): the two result sets are keyed differently — dense
entries by `chunk_id`, keyword entries by `text` — so they collide only
when the chunk id equals the text. On a collision no weighted sum is
formed: the entry whose own weighted component
(`alpha * dense_norm` vs `(1-alpha) * keyword_norm`) is larger is kept,
namely the keyword record (carrying its raw keyword score) when its
component is strictly larger, else the dense-derived record (carrying
`alpha * dense_norm` as its score). -/
theorem claim_c2_amended :
    ∀ (p : ChunkQueryResult) (e : ESQueryResult) (alpha : ℚ),
      p.chunk_id = e.text →
      merge_search_results [p] [e] alpha =
        [if alpha * ((p.score + 1) / 2) < (1 - alpha) * (e.score / 10) then e
         else
           { text := p.text
             author_id := p.authors.headD "unknown"
             channel_id := "unknown"
             timestamp := p.first_timestamp
             guild_id := none
             score := alpha * ((p.score + 1) / 2) }] := by
  intro p e alpha h
  unfold merge_search_results
  simp only [List.foldl_cons, List.foldl_nil, mapInsert, mapGet, h, if_pos]
  by_cases hlt : alpha * ((p.score + 1) / 2) < (1 - alpha) * (e.score / 10)
  · simp [hlt, mapInsert, sortByScoreDesc, List.insertionSort, List.orderedInsert]
  · simp [hlt, sortByScoreDesc, List.insertionSort, List.orderedInsert]

/-- Claim C2 (witness): the amended statement at the concrete overlapping
inputs (dense `0.8`, keyword `6.0`, colliding keys). -/
theorem claim_c2_witness :
    merge_search_results [p2eq] [e2] (13/20) =
      [if (13/20 : ℚ) * ((p2eq.score + 1) / 2) < (1 - 13/20) * (e2.score / 10) then e2
       else
         { text := p2eq.text
           author_id := p2eq.authors.headD "unknown"
           channel_id := "unknown"
           timestamp := p2eq.first_timestamp
           guild_id := none
           score := (13/20) * ((p2eq.score + 1) / 2) }] :=
  claim_c2_amended p2eq e2 (13/20) rfl

/-- Claim C6 (counterexample): content returned by both back-ends (text
"hello") appears twice in the fused output when the dense entry's chunk
id (`"c1"`) differs from the text — the de-duplication compares the
keyword entry's text against the dense entry's chunk id, not text
identity. -/
theorem claim_c6_counterexample :
    p2.text = "hello" ∧ e2.text = "hello" ∧
    ((merge_search_results [p2] [e2] (13/20)).filter (fun r => r.text = "hello")).length = 2 := by
  have h := merge_single_distinct p2 e2 (13/20) (by decide) (by norm_num [p2, e2])
  refine ⟨rfl, rfl, ?_⟩
  rw [h]
  simp [p2, e2]

/-- Claim C6 (amended): de-duplication keys dense entries by `chunk_id`
and keyword entries by `text`; overlapping content therefore appears
twice whenever the dense entry's chunk id differs from the text, and
only when the chunk id equals the text is a single entry kept (the one
with the larger weighted component). -/
theorem claim_c6_amended :
    (∀ (p : ChunkQueryResult) (e : ESQueryResult) (alpha : ℚ),
      p.text = e.text → p.chunk_id ≠ e.text →
      ((merge_search_results [p] [e] alpha).filter (fun r => r.text = e.text)).length = 2) ∧
    (∀ (p : ChunkQueryResult) (e : ESQueryResult) (alpha : ℚ),
      p.chunk_id = e.text →
      (merge_search_results [p] [e] alpha).length = 1) := by
  constructor
  · intro p e alpha htext h
    unfold merge_search_results
    simp only [List.foldl_cons, List.foldl_nil, mapInsert, mapGet, h, if_neg]
    rw [sortByScoreDesc_filter_length]
    simp [htext]
  · intro p e alpha h
    unfold merge_search_results
    simp only [List.foldl_cons, List.foldl_nil, mapInsert, mapGet, h, if_pos]
    by_cases hlt : alpha * ((p.score + 1) / 2) < (1 - alpha) * (e.score / 10)
    all_goals simp [hlt, mapInsert, sortByScoreDesc, List.insertionSort, List.orderedInsert]

/-- Claim C6 (witness): duplication at the concrete overlapping inputs,
and the single-entry case when the keys collide. -/
theorem claim_c6_witness :
    ((merge_search_results [p2] [e2] (13/20)).filter (fun r => r.text = e2.text)).length = 2 ∧
    (merge_search_results [p2eq] [e2] (13/20)).length = 1 :=
  ⟨claim_c6_amended.1 p2 e2 (13/20) rfl (by decide),
   claim_c6_amended.2 p2eq e2 (13/20) rfl⟩

/-- A buffer looked up in a table satisfying the length invariant is
itself below `MAX_CHUNK_SIZE` (a fresh buffer is empty). -/
theorem getBuffer_lt : ∀ (st : ChunkManagerState) (key : String), BufLenInv st →
    (getBuffer st key).messages.length < MAX_CHUNK_SIZE := by
  intro st
  induction st with
  | nil =>
    intro key _
    simp [getBuffer, MessageBuffer.new, MAX_CHUNK_SIZE]
  | cons q rest ih =>
    intro key h
    obtain ⟨k, b⟩ := q
    by_cases hk : k = key
    · rw [show getBuffer ((k, b) :: rest) key = b by simp [getBuffer, hk]]
      exact h (k, b) (List.mem_cons_self _ _)
    · rw [show getBuffer ((k, b) :: rest) key = getBuffer rest key by
        simp [getBuffer, hk]]
      exact ih key (fun p hp => h p (List.mem_cons_of_mem _ hp))

/-- Storing a small buffer preserves the length invariant. -/
theorem setBuffer_inv : ∀ (st : ChunkManagerState) (key : String) (b : MessageBuffer),
    BufLenInv st → b.messages.length < MAX_CHUNK_SIZE →
    BufLenInv (setBuffer st key b) := by
  intro st
  induction st with
  | nil =>
    intro key b _ hb p hp
    rw [show setBuffer [] key b = [(key, b)] from rfl] at hp
    rcases List.mem_cons.mp hp with rfl | hp
    · exact hb
    · cases hp
  | cons q rest ih =>
    intro key b h hb p hp
    obtain ⟨k, b0⟩ := q
    by_cases hk : k = key
    · rw [show setBuffer ((k, b0) :: rest) key b = (key, b) :: rest by
        simp [setBuffer, hk]] at hp
      rcases List.mem_cons.mp hp with rfl | hp
      · exact hb
      · exact h p (List.mem_cons_of_mem _ hp)
    · rw [show setBuffer ((k, b0) :: rest) key b = (k, b0) :: setBuffer rest key b by
        simp [setBuffer, hk]] at hp
      rcases List.mem_cons.mp hp with rfl | hp
      · exact h (k, b0) (List.mem_cons_self _ _)
      · exact ih key b (fun q hq => h q (List.mem_cons_of_mem _ hq)) hb p hp

/-- The pre-add flush either clears the buffer or leaves it as it was. -/
theorem flush_if_should_buffer (chunk_id : String) (t : Int) (b : MessageBuffer) :
    (flush_if_should chunk_id t b).2.messages.length = 0 ∨
      (flush_if_should chunk_id t b).2 = b := by
  unfold flush_if_should
  by_cases hs : b.should_flush t
  · cases hck : b.create_chunk chunk_id with
    | none => simp [hs, hck]
    | some r =>
      obtain ⟨c, b'⟩ := r
      obtain ⟨_, _, _, hb'⟩ := create_chunk_eq_some hck
      simp [hs, hck, hb']
  · simp [hs]

/-- A chunk emitted by the pre-add flush carries the whole previous
buffer content. -/
theorem flush_if_should_chunk {chunk_id : String} {t : Int} {b : MessageBuffer}
    {c : MessageChunk} (h : (flush_if_should chunk_id t b).1 = some c) :
    MIN_CHUNK_SIZE ≤ c.message_count ∧ c.message_count = b.messages.length := by
  unfold flush_if_should at h
  by_cases hs : b.should_flush t
  · rw [if_pos hs] at h
    cases hck : b.create_chunk chunk_id with
    | none => rw [hck] at h; simp at h
    | some r =>
      obtain ⟨c', b'⟩ := r
      rw [hck] at h
      simp only [Option.some.injEq] at h
      obtain ⟨hcount, hge, _, _⟩ := create_chunk_eq_some hck
      rw [← h]
      exact ⟨by omega, hcount⟩
  · rw [if_neg hs] at h
    simp at h

/-- The post-add flush either clears the buffer, or leaves a buffer that
was still below `MAX_CHUNK_SIZE`. -/
theorem flush_if_full_buffer (chunk_id : String) (b : MessageBuffer) :
    (flush_if_full chunk_id b).2.messages.length = 0 ∨
      ((flush_if_full chunk_id b).2 = b ∧ b.messages.length < MAX_CHUNK_SIZE) := by
  unfold flush_if_full
  by_cases hmax : MAX_CHUNK_SIZE ≤ b.messages.length
  · have hmin : MIN_CHUNK_SIZE ≤ b.messages.length := by
      have h12 : MAX_CHUNK_SIZE = 12 := rfl
      have h3 : MIN_CHUNK_SIZE = 3 := rfl
      omega
    obtain ⟨c, b', hck⟩ := create_chunk_isSome chunk_id hmin
    obtain ⟨_, _, _, hb'⟩ := create_chunk_eq_some hck
    simp [hmax, hck, hb']
  · rw [if_neg hmax]
    exact Or.inr ⟨rfl, not_le.mp hmax⟩

/-- A chunk emitted by the post-add flush carries the whole buffer
content. -/
theorem flush_if_full_chunk {chunk_id : String} {b : MessageBuffer}
    {c : MessageChunk} (h : (flush_if_full chunk_id b).1 = some c) :
    MIN_CHUNK_SIZE ≤ c.message_count ∧ c.message_count = b.messages.length := by
  unfold flush_if_full at h
  by_cases hmax : MAX_CHUNK_SIZE ≤ b.messages.length
  · rw [if_pos hmax] at h
    cases hck : b.create_chunk chunk_id with
    | none => rw [hck] at h; simp at h
    | some r =>
      obtain ⟨c', b'⟩ := r
      rw [hck] at h
      simp only [Option.some.injEq] at h
      obtain ⟨hcount, hge, _, _⟩ := create_chunk_eq_some hck
      rw [← h]
      exact ⟨by omega, hcount⟩
  · rw [if_neg hmax] at h
    simp at h

/-- One successful `process_message` call preserves the length invariant
and only emits chunks of between `MIN_CHUNK_SIZE` and `MAX_CHUNK_SIZE`
messages. -/
theorem process_message_spec {parseTs : String → Option Int} {id1 id2 : String}
    {st : ChunkManagerState} {m : MessageEvent} {st' : ChunkManagerState}
    {cs : List MessageChunk} (hInv : BufLenInv st)
    (h : process_message parseTs id1 id2 st m = .ok (st', cs)) :
    BufLenInv st' ∧ ∀ c ∈ cs,
      MIN_CHUNK_SIZE ≤ c.message_count ∧ c.message_count ≤ MAX_CHUNK_SIZE := by
  have h12 : MAX_CHUNK_SIZE = 12 := rfl
  have h3 : MIN_CHUNK_SIZE = 3 := rfl
  unfold process_message at h
  cases hts : parseTs m.timestamp with
  | none => rw [hts] at h; cases h
  | some t =>
    rw [hts] at h
    simp only [Except.ok.injEq, Prod.mk.injEq] at h
    obtain ⟨hst, hcs⟩ := h
    have hb0 : (getBuffer st (get_buffer_key m.guild_id m.channel_id)).messages.length
        < MAX_CHUNK_SIZE := getBuffer_lt st _ hInv
    have hb1 := flush_if_should_buffer id1 t
      (getBuffer st (get_buffer_key m.guild_id m.channel_id))
    have hb1len : (flush_if_should id1 t
        (getBuffer st (get_buffer_key m.guild_id m.channel_id))).2.messages.length
        < MAX_CHUNK_SIZE := by
      rcases hb1 with h0 | hsame
      · omega
      · rw [hsame]
        exact hb0
    have hb2 : ((flush_if_should id1 t
        (getBuffer st (get_buffer_key m.guild_id m.channel_id))).2.add_message
          parseTs m).messages.length =
        (flush_if_should id1 t
          (getBuffer st (get_buffer_key m.guild_id m.channel_id))).2.messages.length
          + 1 := by
      simp [MessageBuffer.add_message]
    have hb3 := flush_if_full_buffer id2
      ((flush_if_should id1 t
        (getBuffer st (get_buffer_key m.guild_id m.channel_id))).2.add_message parseTs m)
    constructor
    · rw [← hst]
      apply setBuffer_inv st _ _ hInv
      rcases hb3 with h0 | ⟨hsame, hlt⟩
      · omega
      · rw [hsame, hb2]
        omega
    · intro c hc
      rw [← hcs, List.mem_append] at hc
      rcases hc with hc | hc
      · have hc1 : (flush_if_should id1 t
            (getBuffer st (get_buffer_key m.guild_id m.channel_id))).1 = some c := by
          cases ho : (flush_if_should id1 t
              (getBuffer st (get_buffer_key m.guild_id m.channel_id))).1 with
          | none => rw [ho] at hc; simp at hc
          | some c0 => rw [ho] at hc; simp at hc; rw [hc]
        obtain ⟨hge, hcount⟩ := flush_if_should_chunk hc1
        omega
      · have hc2 : (flush_if_full id2
            ((flush_if_should id1 t
              (getBuffer st (get_buffer_key m.guild_id m.channel_id))).2.add_message
                parseTs m)).1 = some c := by
          cases ho : (flush_if_full id2
              ((flush_if_should id1 t
                (getBuffer st (get_buffer_key m.guild_id m.channel_id))).2.add_message
                  parseTs m)).1 with
          | none => rw [ho] at hc; simp at hc
          | some c0 => rw [ho] at hc; simp at hc; rw [hc]
        obtain ⟨hge, hcount⟩ := flush_if_full_chunk hc2
        rw [hb2] at hcount
        omega

/-- Feeding any message list preserves the length invariant, and every
chunk emitted along the way respects the size bounds. -/
theorem run_messages_from_spec :
    ∀ (msgs : List MessageEvent) (parseTs : String → Option Int)
      (ids : Nat → String) (i : Nat) (st : ChunkManagerState), BufLenInv st →
      BufLenInv (run_messages_from parseTs ids i st msgs).1 ∧
      ∀ c ∈ (run_messages_from parseTs ids i st msgs).2,
        MIN_CHUNK_SIZE ≤ c.message_count ∧ c.message_count ≤ MAX_CHUNK_SIZE := by
  intro msgs
  induction msgs with
  | nil =>
    intro parseTs ids i st hInv
    refine ⟨hInv, ?_⟩
    intro c hc
    simp [run_messages_from] at hc
  | cons m ms ih =>
    intro parseTs ids i st hInv
    have hstep : BufLenInv
        (process_message_or_keep parseTs (ids (2 * i)) (ids (2 * i + 1)) st m).1 ∧
        ∀ c ∈ (process_message_or_keep parseTs (ids (2 * i)) (ids (2 * i + 1)) st m).2,
          MIN_CHUNK_SIZE ≤ c.message_count ∧ c.message_count ≤ MAX_CHUNK_SIZE := by
      unfold process_message_or_keep
      cases hpm : process_message parseTs (ids (2 * i)) (ids (2 * i + 1)) st m with
      | error e =>
        refine ⟨hInv, ?_⟩
        intro c hc
        simp at hc
      | ok r =>
        exact process_message_spec hInv (show _ = Except.ok (r.1, r.2) from hpm)
    have hrec := ih parseTs ids (i + 1)
      (process_message_or_keep parseTs (ids (2 * i)) (ids (2 * i + 1)) st m).1 hstep.1
    refine ⟨hrec.1, ?_⟩
    intro c hc
    rw [show (run_messages_from parseTs ids i st (m :: ms)).2 =
        (process_message_or_keep parseTs (ids (2 * i)) (ids (2 * i + 1)) st m).2 ++
        (run_messages_from parseTs ids (i + 1)
          (process_message_or_keep parseTs (ids (2 * i)) (ids (2 * i + 1)) st m).1 ms).2
      from rfl] at hc
    rcases List.mem_append.mp hc with hc | hc
    · exact hstep.2 c hc
    · exact hrec.2 c hc

/-- Claim C5: every chunk emitted by `process_message` (feeding any
message stream to a fresh manager; chunks produced by the explicit drain
are not involved) has a `message_count` between `MIN_CHUNK_SIZE` (3) and
`MAX_CHUNK_SIZE` (12): a flush below the minimum emits nothing and keeps
the buffer, and no buffer ever exceeds the maximum before being
drained. -/
theorem claim_c5 :
    ∀ (parseTs : String → Option Int) (ids : Nat → String)
      (msgs : List MessageEvent) (c : MessageChunk),
      c ∈ (run_messages parseTs ids msgs).2 →
      MIN_CHUNK_SIZE ≤ c.message_count ∧ c.message_count ≤ MAX_CHUNK_SIZE := by
  intro parseTs ids msgs c hc
  exact (run_messages_from_spec msgs parseTs ids 0 ChunkManagerState.new
    (fun p hp => absurd hp (List.not_mem_nil p))).2 c hc

set_option maxRecDepth 1000000 in
/-- Claim C5 (witness): twelve messages, one nanosecond apart, in one
channel produce exactly one chunk, whose `message_count` is within the
bounds. -/
theorem claim_c5_witness :
    c5Chunk ∈ (run_messages parseNum idsEx msgs12).2 ∧
    MIN_CHUNK_SIZE ≤ c5Chunk.message_count ∧
    c5Chunk.message_count ≤ MAX_CHUNK_SIZE := by
  have hl : (run_messages parseNum idsEx msgs12).2 = [c5Chunk] := rfl
  have hmem : c5Chunk ∈ (run_messages parseNum idsEx msgs12).2 := by
    rw [hl]
    exact List.mem_singleton_self _
  exact ⟨hmem, claim_c5 parseNum idsEx msgs12 c5Chunk hmem⟩

/-- Claim C4 (witness): the flush decision at a concrete buffer and
time, and the post-add re-check at a concrete buffer. -/
theorem claim_c4_witness :
    (exBuf3.should_flush 5 = true ↔
      (exBuf3.messages ≠ [] ∧
        (MAX_CHUNK_SIZE ≤ exBuf3.messages.length ∨
          TIME_GAP_NANOS < 5 - exBuf3.last_message_time))) ∧
    ((flush_if_full "u3" exBuf3).1.isSome = true ↔
      MAX_CHUNK_SIZE ≤ exBuf3.messages.length) :=
  ⟨claim_c4.1 exBuf3 5, claim_c4.2 "u3" exBuf3⟩

/-- Claim C8 (witness): the amended statement at a concrete guild id. -/
theorem claim_c8_witness :
    hybrid_dense_query (some "g") =
      some { topK := 5, typeEq := "chunk", guild := .eq "g" } ∧
    hybrid_dense_query none = none :=
  claim_c8_amended "g"
